import Mathlib

/-!
Shallow embedding of the yap-audio/fetch negotiation pipeline.

Python strings are modelled as `List Char` where character-level scanning
matters and as `String` otherwise; Python floats are modelled as exact
rationals (`ℚ`); Python `None`-able values as `Option`; raised exceptions
as `Except`.  Each definition is translated from the corresponding source
function, named after it where Lean allows.
-/

namespace Fetch

/-- Python truthiness of an optional string (`if not s: ...`):
`None` and the empty string are falsy. -/
def truthyOptStr : Option String → Bool
  | none => false
  | some s => decide (s ≠ "")

/-- Python truthiness of an optional float (`if amt: ...`):
`None` and `0.0` are falsy. -/
def truthyOptQ : Option ℚ → Bool
  | none => false
  | some a => decide (a ≠ 0)

/-- Python `str.upper()` restricted to ASCII, which is all the decision
markers use (`response.upper()` in `agent.py`). -/
def pyUpper (s : List Char) : List Char := s.map Char.toUpper

/-- Python `needle in haystack` substring test: `needle` occurs contiguously
inside `hay`. -/
def listContains (hay needle : List Char) : Bool :=
  match hay with
  | [] => decide (needle = [])
  | _ :: t => needle.isPrefixOf hay || listContains t needle

/-- The literal acceptance marker from the wire contract. -/
def markerAccept : List Char := "DECISION: ACCEPT".toList

/-- The literal rejection marker from the wire contract. -/
def markerReject : List Char := "DECISION: REJECT".toList

/-- `NegotiationAgent._extract_decision` (src/negotiator/agent.py lines
224-238): uppercase the response, look for the accept marker first, then
the reject marker, defaulting to `continue`. -/
def extract_decision (response : List Char) : String :=
  let response_upper := pyUpper response
  if listContains response_upper markerAccept then "accept"
  else if listContains response_upper markerReject then "reject"
  else "continue"

/-- The orchestrator's independent re-derivation of the decision on the A2A
path (src/negotiator/orchestrator.py lines 163-169): start from
`"continue"`, set `accept` if the accept marker occurs in the uppercased
text, else `reject` if the reject marker occurs. -/
def orchestrator_extract_decision (full_response : List Char) : String :=
  if listContains (pyUpper full_response) markerAccept then "accept"
  else if listContains (pyUpper full_response) markerReject then "reject"
  else "continue"

/-! ## Image upload content-type inference (src/mobile/src/intent/intent_service.py) -/

/-- Modelled from the Python standard library: `mimetypes.guess_type`
restricted to the file extensions exercised in this development
(`mimetypes` is stdlib, not part of this repository; the entries below are
from CPython's builtin `types_map`, keyed by lowercased extension -
`guess_type` lowercases the extension itself).  `.webp` is absent from the
builtin table on the Python versions this code targets. -/
def pyGuessTypeExt (ext : String) : Option String :=
  if ext = ".png" then some "image/png"
  else if ext = ".jpg" ∨ ext = ".jpeg" then some "image/jpeg"
  else if ext = ".gif" then some "image/gif"
  else if ext = ".bmp" then some "image/bmp"
  else if ext = ".svg" then some "image/svg+xml"
  else if ext = ".tif" ∨ ext = ".tiff" then some "image/tiff"
  else if ext = ".pdf" then some "application/pdf"
  else if ext = ".txt" then some "text/plain"
  else none

/-- The fixed fallback map `content_type_map` from
`IntentService.upload_image` (intent_service.py lines 107-113). -/
def content_type_map (ext : String) : Option String :=
  if ext = ".jpg" then some "image/jpeg"
  else if ext = ".jpeg" then some "image/jpeg"
  else if ext = ".png" then some "image/png"
  else if ext = ".gif" then some "image/gif"
  else if ext = ".webp" then some "image/webp"
  else none

/-- Python `s.startswith("image/")`, written over character lists so the
kernel can evaluate it. -/
def startsWithImage (s : String) : Bool :=
  "image/".toList.isPrefixOf s.toList

/-- Content-type inference of `IntentService.upload_image`
(intent_service.py lines 102-114), as a function of the lowercased
extension of the given path: first consult `mimetypes.guess_type`; if it
yields nothing or a non-`image/` type, fall back to the fixed map with
default `image/jpeg`. -/
def inferContentType (ext : String) : String :=
  match pyGuessTypeExt ext with
  | some content_type =>
      if startsWithImage content_type then content_type
      else (content_type_map ext).getD "image/jpeg"
  | none => (content_type_map ext).getD "image/jpeg"

/-! ## Negotiation agent state (src/negotiator/agent.py, `__init__`) -/

/-- The per-instance negotiation state set up by `NegotiationAgent.__init__`
(agent.py lines 22-55): `max_budget` comes from the intent, `min_amount`
is always computed as 65% of it (lines 35-39), for buyers and sellers
alike. -/
structure NegotiationAgent where
  agent_type : String
  max_budget : ℚ
  description : String
  min_amount : ℚ
deriving DecidableEq

/-- Construct an agent from an intent's `max_amount_usd` and `description`,
mirroring `__init__`: `min_amount = max_budget * 0.65`. -/
def mkAgent (max_amount_usd : ℚ) (description : String) (agent_type : String) :
    NegotiationAgent :=
  { agent_type := agent_type
    max_budget := max_amount_usd
    description := description
    min_amount := max_amount_usd * (65 / 100) }

/-! ## Transaction-amount extraction (agent.py lines 240-267)

The regex `\$?\s*([\d,]+(?:\.\d{2})?)` with `re.findall` is embedded as a
character-level scanner: at each position try to match an optional `$`,
a run of whitespace, then a nonempty run of digits/commas followed by an
optional `.dd`; the captured group is the digit part.  Matches are
leftmost and non-overlapping, digits and whitespace are ASCII. -/

/-- ASCII whitespace accepted by the regex class `\s`. -/
def isPySpace (c : Char) : Bool :=
  c = ' ' || c = '\t' || c = '\n' || c = '\r' || c = '\x0b' || c = '\x0c'

/-- Characters matched by the regex class `[\d,]`. -/
def isDigitComma (c : Char) : Bool := c.isDigit || c = ','

/-- Try to match `\$?\s*([\d,]+(?:\.\d{2})?)` at the head of `s`; on
success return the captured group and the remainder of the input after
the whole match. -/
def matchAmountAt (s : List Char) : Option (List Char × List Char) :=
  let s1 := match s with
    | '$' :: t => t
    | _ => s
  let s2 := s1.dropWhile isPySpace
  let g := s2.takeWhile isDigitComma
  if g = [] then none
  else
    let r := s2.dropWhile isDigitComma
    match r with
    | '.' :: d1 :: d2 :: rest =>
        if d1.isDigit && d2.isDigit then some (g ++ ['.', d1, d2], rest)
        else some (g, r)
    | _ => some (g, r)

/-- `re.findall` for the amount pattern: scan left to right, taking
non-overlapping matches.  `fuel` bounds the recursion; every step consumes
at least one character, so `s.length` fuel suffices. -/
def scanAmounts : Nat → List Char → List (List Char)
  | 0, _ => []
  | _ + 1, [] => []
  | fuel + 1, s =>
      match matchAmountAt s with
      | some (g, rest) => g :: scanAmounts fuel rest
      | none => scanAmounts fuel (s.drop 1)

/-- All candidate amount strings found in a response
(`re.findall(r'\$?\s*([\d,]+(?:\.\d{2})?)', response)`). -/
def pyFindAmounts (s : List Char) : List (List Char) :=
  scanAmounts s.length s

/-- Value of a digit string, most significant first. -/
def digitsToNat (ds : List Char) : Nat :=
  ds.foldl (fun n c => 10 * n + (c.toNat - 48)) 0

/-- Python `float(amount_str.replace(',', ''))` on a scanner candidate:
commas are dropped; an empty remainder raises `ValueError` (modelled as
`none`); otherwise the string has shape `digits`, `digits.dd` or `.dd`
by construction of the scanner. -/
def parseCandidate (g : List Char) : Option ℚ :=
  let cs := g.filter (fun c => c ≠ ',')
  if cs = [] then none
  else if cs.contains '.' then
    let intPart := cs.takeWhile (fun c => c ≠ '.')
    let fracPart := (cs.dropWhile (fun c => c ≠ '.')).drop 1
    some ((digitsToNat intPart : ℚ) + (digitsToNat fracPart : ℚ) / 100)
  else some (digitsToNat cs)

/-- The candidate loop of `_extract_transaction_amount` (agent.py lines
257-264): parse each candidate in order, return the first whose value
satisfies `0.01 < amount <= max_budget`, skipping unparseable ones. -/
def firstQualifying (max_budget : ℚ) : List (List Char) → Option ℚ
  | [] => none
  | g :: rest =>
      match parseCandidate g with
      | some amount =>
          if 1 / 100 < amount ∧ amount ≤ max_budget then some amount
          else firstQualifying max_budget rest
      | none => firstQualifying max_budget rest

/-- `NegotiationAgent._extract_transaction_amount` (agent.py lines
240-267): `None` unless the decision is `accept`; otherwise the first
qualifying dollar figure in the text, falling back to `self.min_amount`
(which `__init__` always defines, so the `hasattr` guard on line 267 is
always true). -/
def extract_transaction_amount (ag : NegotiationAgent) (response : List Char)
    (decision : String) : Option ℚ :=
  if decision ≠ "accept" then none
  else
    match firstQualifying ag.max_budget (pyFindAmounts response) with
    | some amount => some amount
    | none => some ag.min_amount

/-! ## Payment execution (agent.py lines 269-336) -/

/-- One `send_to_address` invocation on the Locus MCP payment client. -/
structure SendCall where
  address : String
  amount : ℚ
  memo : String
deriving DecidableEq

/-- The structured payment result dictionaries returned by
`execute_payment`: the accept-path dict, the reject-path dict, or the
`{"error": ...}` dict produced by the `except` handler. -/
inductive PaymentResult where
  | accepted (seller_payment : String) (user_refund : Option String)
      (amount_paid : ℚ) (amount_refunded : ℚ)
  | rejected (user_refund : String) (amount_refunded : ℚ)
  | failure (msg : String)
deriving DecidableEq

/-- The body of the `try:` block of `execute_payment` (agent.py lines
293-331).  `send` models `self.mcp_client.send_to_address`; a `.error`
outcome models a raised exception, which aborts the remaining sends.  The
second component records the transfers attempted, in order.  Note the
accept branch requires a truthy `transaction_amount`
(`if decision == "accept" and transaction_amount:`), the refund transfer
is only issued when `remaining > 0.01`, and `amount_refunded` reports
`remaining` either way. -/
def payment_attempt (send : SendCall → Except String String)
    (seller_address user_address : String) (ag : NegotiationAgent)
    (decision : String) (transaction_amount : Option ℚ) :
    Except String (Option PaymentResult) × List SendCall :=
  if decision = "accept" ∧ truthyOptQ transaction_amount = true then
    let amt := transaction_amount.getD 0
    let seller_call : SendCall :=
      ⟨seller_address, amt, "Purchase: " ++ String.mk (ag.description.toList.take 80)⟩
    match send seller_call with
    | .error e => (.error e, [seller_call])
    | .ok seller_payment =>
        let remaining := ag.max_budget - amt
        if remaining > 1 / 100 then
          let refund_call : SendCall :=
            ⟨user_address, remaining, "Refund: Remaining budget"⟩
          match send refund_call with
          | .error e => (.error e, [seller_call, refund_call])
          | .ok user_refund =>
              (.ok (some (.accepted seller_payment (some user_refund) amt remaining)),
               [seller_call, refund_call])
        else
          (.ok (some (.accepted seller_payment none amt remaining)), [seller_call])
  else if decision = "reject" then
    let refund_call : SendCall :=
      ⟨user_address, ag.max_budget, "Full refund: Deal rejected"⟩
    match send refund_call with
    | .error e => (.error e, [refund_call])
    | .ok refund => (.ok (some (.rejected refund ag.max_budget)), [refund_call])
  else (.ok none, [])

/-- `NegotiationAgent.execute_payment` (agent.py lines 269-336):
no-op without a payment client; a configuration-error result if either
wallet address is unset or empty; otherwise run the try-block, catching
any raised exception into a `failure` result (the `except Exception`
handler on lines 333-334). -/
def execute_payment (hasMcpClient : Bool)
    (seller_address user_address : Option String)
    (send : SendCall → Except String String) (ag : NegotiationAgent)
    (decision : String) (transaction_amount : Option ℚ) :
    Option PaymentResult × List SendCall :=
  if hasMcpClient = false then (none, [])
  else if truthyOptStr seller_address = false ∨ truthyOptStr user_address = false then
    (some (.failure "Wallet addresses not configured"), [])
  else
    match payment_attempt send (seller_address.getD "") (user_address.getD "")
        ag decision transaction_amount with
    | (.ok r, calls) => (r, calls)
    | (.error e, calls) => (some (.failure e), calls)

/-! ## Negotiation orchestrator (src/negotiator/orchestrator.py lines 172-302)

`run_negotiation` drives rounds 0..max_rounds-1.  Agent endpoints are
modelled as an oracle giving each round's returned turn (response text,
decision string, optional payment result): the loop consumes exactly one
oracle turn per round, so a per-round oracle captures every behaviour of
the remote agents.  The opening message
`f"I'm offering this item for ${initial_offer:.2f}"` is modelled as a
message value carrying the exact offer `initial_offer = max_amount * 1.2`
(the f-string rendering is abstracted, the amount is not); agent responses
are plain text messages. -/

/-- A message passed to an agent: the orchestrator's rendered opening
offer, or an agent's own prior utterance. -/
inductive Msg where
  | openingOffer (amount : ℚ)
  | plain (text : String)
deriving DecidableEq

/-- What one `call_agent` round returns: `(full_response, decision,
payment_result)` (orchestrator.py line 57). -/
structure TurnOut where
  response : String
  decision : String
  payment : Option PaymentResult
deriving DecidableEq

/-- One `conversation_history` entry (orchestrator.py lines 253-260):
role, content, and the payment result when one was present. -/
structure HistEntry where
  role : String
  content : Msg
  payment : Option PaymentResult
deriving DecidableEq

/-- A record of one agent invocation: who was called, with which message,
and the history length at the moment the speaker was chosen. -/
structure AgentCall where
  speaker : String
  message : Msg
  histLen : Nat
deriving DecidableEq

/-- The result dictionary of `run_negotiation`.  `final_decision_by = none`
models the timeout dictionary (orchestrator.py lines 297-302), which
carries no `final_decision_by` key; `some role` models the accept/reject
dictionaries (lines 269-289), which do. -/
structure RunResult where
  status : String
  outcome : String
  rounds : Nat
  conversation : List HistEntry
  final_decision_by : Option String
deriving DecidableEq

/-- The `for round_num in range(max_rounds)` loop of `run_negotiation`
(orchestrator.py lines 209-302), with `rounds_left` the remaining
iterations.  Round 0 is the seller with the opening offer
(`1.2 = 6/5` times the budget); later rounds pick the speaker from the
parity of `len(conversation_history)` and pass `conversation_history[-1]`.
Returns the result dictionary and the trace of agent calls made. -/
def run_loop (oracle : Nat → TurnOut) (max_amount : ℚ) (max_rounds : Nat) :
    Nat → Nat → List HistEntry → RunResult × List AgentCall
  | _, 0, hist =>
      (⟨"timeout", "max_rounds_reached", max_rounds, hist, none⟩, [])
  | round_num, rounds_left + 1, hist =>
      let current_speaker :=
        if round_num = 0 then "seller"
        else if hist.length % 2 = 0 then "seller" else "buyer"
      let message :=
        if round_num = 0 then Msg.openingOffer (max_amount * (6 / 5))
        else ((hist.getLast?).map HistEntry.content).getD (Msg.plain "")
      let t := oracle round_num
      let entry : HistEntry := ⟨current_speaker, Msg.plain t.response, t.payment⟩
      let hist2 := hist ++ [entry]
      let call : AgentCall := ⟨current_speaker, message, hist.length⟩
      if t.decision = "accept" then
        (⟨"success", "accepted", round_num + 1, hist2, some current_speaker⟩, [call])
      else if t.decision = "reject" then
        (⟨"failed", "rejected", round_num + 1, hist2, some current_speaker⟩, [call])
      else
        let rest := run_loop oracle max_amount max_rounds (round_num + 1) rounds_left hist2
        (rest.1, call :: rest.2)

/-- `NegotiationOrchestrator.run_negotiation` over an intent with
`max_amount_usd = max_amount`: run the round loop from round 0 with empty
history. -/
def run_negotiation (oracle : Nat → TurnOut) (max_amount : ℚ) (max_rounds : Nat) :
    RunResult × List AgentCall :=
  run_loop oracle max_amount max_rounds 0 max_rounds []

/-- The speaker of round `n`: history length at round `n` is `n`, so the
round-0 seller rule and the parity rule collapse to the parity of `n`. -/
def speakerAt (n : Nat) : String := if n % 2 = 0 then "seller" else "buyer"

/-- The history entry the loop appends for round `n`. -/
def histEntryAt (oracle : Nat → TurnOut) (n : Nat) : HistEntry :=
  ⟨speakerAt n, Msg.plain (oracle n).response, (oracle n).payment⟩

/-- The conversation history accumulated after rounds `0..n-1`. -/
def histUpTo (oracle : Nat → TurnOut) : Nat → List HistEntry
  | 0 => []
  | n + 1 => histUpTo oracle n ++ [histEntryAt oracle n]

/-- The message passed to round `n`'s speaker: the opening offer at round
0, the previous round's response afterwards. -/
def msgAt (oracle : Nat → TurnOut) (max_amount : ℚ) : Nat → Msg
  | 0 => Msg.openingOffer (max_amount * (6 / 5))
  | n + 1 => Msg.plain (oracle n).response

/-- The agent call round `n` makes. -/
def callAt (oracle : Nat → TurnOut) (max_amount : ℚ) (n : Nat) : AgentCall :=
  ⟨speakerAt n, msgAt oracle max_amount n, n⟩

/-- A demo endpoint behaviour: both agents continue for two rounds, the
round-2 speaker accepts. -/
def demoOracleAccept : Nat → TurnOut := fun n =>
  if n = 2 then ⟨"I accept at 90. DECISION: ACCEPT", "accept", none⟩
  else ⟨"Let us keep talking. DECISION: CONTINUE", "continue", none⟩

/-- A demo endpoint behaviour: every round continues. -/
def demoOracleCont : Nat → TurnOut :=
  fun _ => ⟨"Still negotiating. DECISION: CONTINUE", "continue", none⟩

/-! ## Intent database layer (src/negotiator/database.py)

The hosted `intents` table is modelled as an association list from `uuid`
to row; each operation is the transformer the corresponding Supabase call
performs on that table.  `uuid` generation in `create_test_intent` is
modelled by passing the fresh uuid as an argument. -/

/-- One row of the `intents` table (the columns this layer touches). -/
structure IntentRow where
  user_id : String
  max_amount_usd : ℚ
  description : String
  status : String
  tx_buyer_to_seller_id : Option String := none
  tx_buyer_to_user_id : Option String := none
deriving DecidableEq

/-- The `intents` table: rows keyed by `uuid`. -/
abbrev IntentsTable := List (String × IntentRow)

/-- The `select("*").eq("uuid", intent_id)` lookup used by `get_intent`. -/
def lookup_intent (table : IntentsTable) (intent_id : String) : Option IntentRow :=
  (table.find? (fun p => p.1 == intent_id)).map Prod.snd

/-- `get_intent` (database.py lines 28-50): return the row, or raise
`IntentNotFoundError` when no row matches. -/
def get_intent (table : IntentsTable) (intent_id : String) : Except String IntentRow :=
  match lookup_intent table intent_id with
  | none => .error ("Intent " ++ intent_id ++ " not found")
  | some row => .ok row

/-- The `updates` dictionary applied to a row: each transaction hash is
written only when truthy (database.py lines 71-75 and 103-106). -/
def apply_tx_updates (row : IntentRow) (txS txU : Option String) : IntentRow :=
  let r1 := if truthyOptStr txS = true then
      { row with tx_buyer_to_seller_id := txS } else row
  if truthyOptStr txU = true then { r1 with tx_buyer_to_user_id := txU } else r1

/-- `update_intent_with_transactions` (database.py lines 53-79): update the
matching row's transaction fields; no database call at all when neither
hash is truthy. -/
def update_intent_with_transactions (table : IntentsTable) (intent_id : String)
    (txS txU : Option String) : IntentsTable :=
  if truthyOptStr txS = false ∧ truthyOptStr txU = false then table
  else table.map (fun p =>
    if p.1 == intent_id then (p.1, apply_tx_updates p.2 txS txU) else p)

/-- `mark_intent_complete` (database.py lines 82-108): set
`status = "completed"` on the matching row, plus any truthy transaction
hashes. -/
def mark_intent_complete (table : IntentsTable) (intent_id : String)
    (txS txU : Option String) : IntentsTable :=
  table.map (fun p =>
    if p.1 == intent_id then
      (p.1, { apply_tx_updates p.2 txS txU with status := "completed" })
    else p)

/-- `create_test_intent` (database.py lines 111-141): insert a fresh row
with `status = "live"`. -/
def create_test_intent (table : IntentsTable) (new_uuid user_id description : String)
    (max_amount : ℚ) : IntentsTable :=
  table ++ [(new_uuid,
    { user_id := user_id, max_amount_usd := max_amount,
      description := description, status := "live" })]

/-- The status column of the row a uuid resolves to. -/
def statusOf (table : IntentsTable) (intent_id : String) : Option String :=
  (lookup_intent table intent_id).map IntentRow.status

/-! ## Transaction tracker (src/negotiator/transaction_tracker.py)

`get_latest_tx_to` issues one block-explorer query; its HTTP layer is
modelled by the query outcome: `query_ok` is `data.get("status") == "1"`
and `txs` the returned `data["result"]` list (most recent first, as the
query sorts descending). -/

/-- One transaction returned by the explorer: its `value` in USDC base
units and its hash. -/
structure ChainTx where
  value : Int
  hash : String
deriving DecidableEq

/-- Python `int(...)` on a float/rational: truncation toward zero. -/
def pyInt (q : ℚ) : Int := if 0 ≤ q then ⌊q⌋ else -⌊-q⌋

/-- The amount test of transaction_tracker.py line 65:
`abs(tx_value - expected_wei) / expected_wei < 0.01`. -/
def matchesWei (expected_wei : Int) (tx : ChainTx) : Bool :=
  decide ((|(tx.value : ℚ) - (expected_wei : ℚ)| / (expected_wei : ℚ)) < 1 / 100)

/-- The `for tx in data["result"]` loop of `get_latest_tx_to`
(transaction_tracker.py lines 57-69): with a truthy expected amount,
return the first hash whose value is within 1% of
`int(expected_amount_usd * 1_000_000)`; with no (or a zero, hence falsy)
expected amount, return the first hash outright. -/
def txLoop (expected_amount_usd : Option ℚ) : List ChainTx → Option String
  | [] => none
  | tx :: rest =>
      match expected_amount_usd with
      | some x =>
          if x = 0 then some tx.hash
          else if matchesWei (pyInt (x * 1000000)) tx then some tx.hash
          else txLoop expected_amount_usd rest
      | none => some tx.hash

/-- `TransactionTracker.get_latest_tx_to` (transaction_tracker.py lines
20-71): `None` without an API key or recipient; `None` when the query
fails or returns no transactions; otherwise scan the descending
transaction list. -/
def get_latest_tx_to (api_key : Option String) (recipient : String)
    (query_ok : Bool) (txs : List ChainTx) (expected_amount_usd : Option ℚ) :
    Option String :=
  if truthyOptStr api_key = false ∨ recipient = "" then none
  else if query_ok = true ∧ txs ≠ [] then txLoop expected_amount_usd txs
  else none

end Fetch

namespace Fetch

/-- C3: the agent's decision extraction is case-insensitive over the literal
markers and checks acceptance before rejection, and the orchestrator's
A2A-path re-derivation agrees with it on every text. -/
theorem c3_decision_extraction :
    (∀ s : List Char, orchestrator_extract_decision s = extract_decision s) ∧
    (∀ s : List Char, listContains (pyUpper s) markerAccept = true →
      extract_decision s = "accept") ∧
    (∀ s : List Char, listContains (pyUpper s) markerAccept = false →
      listContains (pyUpper s) markerReject = true →
      extract_decision s = "reject") ∧
    (∀ s : List Char, listContains (pyUpper s) markerAccept = false →
      listContains (pyUpper s) markerReject = false →
      extract_decision s = "continue") := by
  refine ⟨fun s => rfl, fun s h => ?_, fun s h1 h2 => ?_, fun s h1 h2 => ?_⟩
  · simp [extract_decision, h]
  · simp [extract_decision, h1, h2]
  · simp [extract_decision, h1, h2]

/-- Witness for C3: a mixed-case response carrying both markers resolves to
`accept`; one carrying only the reject marker (in odd case) resolves to
`reject`; one carrying neither resolves to `continue`. -/
theorem c3_decision_extraction_witness :
    extract_decision ("Fine. decision: accept ... Decision: Reject".toList) = "accept" ∧
    extract_decision ("No deal. Decision: rejecT".toList) = "reject" ∧
    extract_decision ("Let me counter at 500.".toList) = "continue" :=
  ⟨c3_decision_extraction.2.1 _ (by decide),
   c3_decision_extraction.2.2.1 _ (by decide) (by decide),
   c3_decision_extraction.2.2.2 _ (by decide) (by decide)⟩

/-- C9 counterexample: a filename ending in `.bmp` is inferred as
`image/bmp` (via the stdlib `mimetypes` table consulted first by the
code), not the claimed fallback `image/jpeg`. -/
theorem c9_content_type_counterexample :
    inferContentType ".bmp" = "image/bmp" ∧ "image/bmp" ≠ "image/jpeg" := by
  constructor
  · decide
  · decide

/-- C9 (amended): the five fixed extensions infer as claimed, and an
extension unknown to both the stdlib `mimetypes` table and the fixed map
falls back to `image/jpeg`; but an extension whose `mimetypes` entry is an
`image/*` type yields that type instead (e.g. `.bmp` yields `image/bmp`),
and a non-`image/*` `mimetypes` entry still falls back (e.g. `.pdf`). -/
theorem c9_content_type_inference :
    inferContentType ".png" = "image/png" ∧
    inferContentType ".jpg" = "image/jpeg" ∧
    inferContentType ".jpeg" = "image/jpeg" ∧
    inferContentType ".gif" = "image/gif" ∧
    inferContentType ".webp" = "image/webp" ∧
    (∀ ext, pyGuessTypeExt ext = none → content_type_map ext = none →
      inferContentType ext = "image/jpeg") ∧
    inferContentType ".pdf" = "image/jpeg" ∧
    inferContentType ".txt" = "image/jpeg" ∧
    inferContentType ".bmp" = "image/bmp" ∧
    inferContentType ".svg" = "image/svg+xml" := by
  refine ⟨by decide, by decide, by decide, by decide, by decide,
    fun ext h1 h2 => ?_, by decide, by decide, by decide, by decide⟩
  simp [inferContentType, h1, h2]

/-- Witness for C9: the fallback conjunct applied at the unknown extension
`.xyz`. -/
theorem c9_content_type_inference_witness :
    inferContentType ".xyz" = "image/jpeg" :=
  c9_content_type_inference.2.2.2.2.2.1 ".xyz" (by decide) (by decide)

/-- Every amount accepted by the candidate loop satisfies the range filter
it applies. -/
theorem firstQualifying_bounds (max_budget : ℚ) :
    ∀ gs a, firstQualifying max_budget gs = some a →
      1 / 100 < a ∧ a ≤ max_budget := by
  intro gs
  induction gs with
  | nil => intro a h; simp [firstQualifying] at h
  | cons g rest ih =>
      intro a h
      unfold firstQualifying at h
      cases hp : parseCandidate g with
      | none => rw [hp] at h; exact ih a h
      | some v =>
          rw [hp] at h
          simp only [] at h
          by_cases hb : 1 / 100 < v ∧ v ≤ max_budget
          · rw [if_pos hb] at h
            cases h
            exact hb
          · rw [if_neg hb] at h
            exact ih a h

/-- C2 (amended): transaction-amount extraction returns a value only when
the decision is `accept`; every value taken from a dollar-figure candidate
in the text satisfies `0.01 < amount ≤ max_budget`; when no candidate
qualifies, extraction returns the seller minimum floor `0.65 × max_budget`
unconditionally - the floor is always defined on the instance, and it is
returned without the range check (so it can violate the lower bound, see
the counterexample). -/
theorem c2_transaction_amount_extraction :
    (∀ (ag : NegotiationAgent) (resp : List Char) (decision : String),
      decision ≠ "accept" → extract_transaction_amount ag resp decision = none) ∧
    (∀ (ag : NegotiationAgent) (resp : List Char) (a : ℚ),
      firstQualifying ag.max_budget (pyFindAmounts resp) = some a →
      extract_transaction_amount ag resp "accept" = some a ∧
        1 / 100 < a ∧ a ≤ ag.max_budget) ∧
    (∀ (B : ℚ) (desc t : String) (resp : List Char),
      firstQualifying B (pyFindAmounts resp) = none →
      extract_transaction_amount (mkAgent B desc t) resp "accept" =
        some (B * (65 / 100))) := by
  refine ⟨fun ag resp d hd => ?_, fun ag resp a h => ?_, fun B desc t resp h => ?_⟩
  · simp [extract_transaction_amount, hd]
  · exact ⟨by simp [extract_transaction_amount, h],
      firstQualifying_bounds ag.max_budget _ a h⟩
  · simp [extract_transaction_amount, mkAgent, h]

/-- Witness for C2: with a budget of 15000 and a response with no dollar
figure, extraction on `accept` falls back to the 65% floor. -/
theorem c2_transaction_amount_extraction_witness :
    extract_transaction_amount (mkAgent 15000 "a watch" "buyer")
      ("Sounds good to me. DECISION: ACCEPT".toList) "accept" =
      some (15000 * (65 / 100)) :=
  c2_transaction_amount_extraction.2.2 15000 "a watch" "buyer" _ (by decide)

/-- C2 counterexample: with `max_amount_usd = 0.01` (a positive budget) and
an accepting response containing no digits, extraction returns the fallback
floor `0.0065`, which does not satisfy the claimed bound
`0.01 < amount`. -/
theorem c2_transaction_amount_counterexample :
    extract_transaction_amount (mkAgent (1 / 100) "a sticker" "buyer")
      ("Great; I agree. DECISION: ACCEPT".toList) "accept" = some (13 / 2000) ∧
    ¬ (1 / 100 < (13 / 2000 : ℚ)) := by
  constructor
  · have h0 : pyFindAmounts ("Great; I agree. DECISION: ACCEPT".toList) = [] := by
      decide
    simp only [extract_transaction_amount, h0, firstQualifying]
    simp only [if_neg (by decide : ¬ ("accept" : String) ≠ "accept"), mkAgent,
      Option.some.injEq]
    norm_num
  · norm_num

/-- C1: with a configured payment client and both wallet addresses set, and
every transfer succeeding (`receipt` gives the gateway's reply for each
call): on `accept` with truthy extracted amount `A` and budget `B`, exactly
`A` is sent to the seller address, the reported `amount_refunded` is
`B - A`, and a refund transfer of `B - A` to the user address is issued if
and only if `B - A > 0.01`; on `reject`, the single transfer is the full
`B` to the user address, so nothing is sent to the seller address. -/
theorem c1_payment_execution (s u : String)
    (hs : truthyOptStr (some s) = true) (hu : truthyOptStr (some u) = true)
    (receipt : SendCall → String) (ag : NegotiationAgent) (A : ℚ)
    (hA : truthyOptQ (some A) = true) :
    (execute_payment true (some s) (some u) (fun c => Except.ok (receipt c))
        ag "accept" (some A) =
      if ag.max_budget - A > 1 / 100 then
        (some (.accepted
            (receipt ⟨s, A, "Purchase: " ++ String.mk (ag.description.toList.take 80)⟩)
            (some (receipt ⟨u, ag.max_budget - A, "Refund: Remaining budget"⟩))
            A (ag.max_budget - A)),
         [⟨s, A, "Purchase: " ++ String.mk (ag.description.toList.take 80)⟩,
          ⟨u, ag.max_budget - A, "Refund: Remaining budget"⟩])
      else
        (some (.accepted
            (receipt ⟨s, A, "Purchase: " ++ String.mk (ag.description.toList.take 80)⟩)
            none A (ag.max_budget - A)),
         [⟨s, A, "Purchase: " ++ String.mk (ag.description.toList.take 80)⟩])) ∧
    (execute_payment true (some s) (some u) (fun c => Except.ok (receipt c))
        ag "reject" (some A) =
      (some (.rejected (receipt ⟨u, ag.max_budget, "Full refund: Deal rejected"⟩)
          ag.max_budget),
       [⟨u, ag.max_budget, "Full refund: Deal rejected"⟩])) := by
  constructor
  · by_cases h : 1 / 100 < ag.max_budget - A
    · simp only [execute_payment, payment_attempt, hs, hu, hA, Option.getD_some,
        if_pos h]
      simp [if_pos h]
    · simp only [execute_payment, payment_attempt, hs, hu, hA, Option.getD_some,
        if_neg h]
      simp [if_neg h]
  · simp [execute_payment, payment_attempt, hs, hu, hA]

/-- Witness for C1: budget 100, agreed price 90; the seller receives 90 and
the user is refunded the remaining 10. -/
theorem c1_payment_execution_witness :
    (execute_payment true (some "0xSeller") (some "0xUser")
      (fun _ => Except.ok "txhash") (mkAgent 100 "vintage guitar" "buyer")
      "accept" (some 90)).1 = some (.accepted "txhash" (some "txhash") 90 10) := by
  have h := (c1_payment_execution "0xSeller" "0xUser" (by decide) (by decide)
      (fun _ => "txhash") (mkAgent 100 "vintage guitar" "buyer") 90
      (by norm_num [truthyOptQ])).1
  rw [if_pos (by norm_num [mkAgent])] at h
  rw [h]
  norm_num [mkAgent]

/-- C4: with a configured client and wallet addresses, any exception raised
inside the try-block of `execute_payment` (here: any `.error` outcome of
the attempted transfers) is caught and surfaced as a structured failure
result carrying the exception message, never propagated - the function
still returns normally. -/
theorem c4_payment_error_caught :
    ∀ (seller_address user_address : Option String)
      (send : SendCall → Except String String) (ag : NegotiationAgent)
      (decision : String) (amt : Option ℚ) (e : String) (calls : List SendCall),
      truthyOptStr seller_address = true → truthyOptStr user_address = true →
      payment_attempt send (seller_address.getD "") (user_address.getD "")
          ag decision amt = (.error e, calls) →
      execute_payment true seller_address user_address send ag decision amt =
        (some (.failure e), calls) := by
  intro sa ua send ag decision amt e calls hs hu h
  simp [execute_payment, hs, hu, h]

/-- Witness for C4: a gateway that raises on every transfer; the reject
path returns `{error: "boom"}` instead of propagating. -/
theorem c4_payment_error_caught_witness :
    execute_payment true (some "0xSeller") (some "0xUser")
      (fun _ => Except.error "boom") (mkAgent 100 "vintage guitar" "buyer")
      "reject" none =
      (some (.failure "boom"), [⟨"0xUser", 100, "Full refund: Deal rejected"⟩]) :=
  c4_payment_error_caught (some "0xSeller") (some "0xUser")
    (fun _ => Except.error "boom") (mkAgent 100 "vintage guitar" "buyer")
    "reject" none "boom" [⟨"0xUser", 100, "Full refund: Deal rejected"⟩]
    (by decide) (by decide) (by simp [payment_attempt, truthyOptQ, mkAgent])

/-- The accumulated history always has one entry per completed round. -/
theorem histUpTo_length (oracle : Nat → TurnOut) :
    ∀ n, (histUpTo oracle n).length = n := by
  intro n
  induction n with
  | zero => rfl
  | succ m ih => simp [histUpTo, ih]

/-- The most recent utterance after rounds `0..n` is round `n`'s entry. -/
theorem histUpTo_getLast (oracle : Nat → TurnOut) (n : Nat) :
    (histUpTo oracle (n + 1)).getLast? = some (histEntryAt oracle n) := by
  simp [histUpTo]

/-- The loop's speaker selection reduces to `speakerAt` when the history
length equals the round number. -/
theorem speaker_expr (n : Nat) (hist : List HistEntry) (hlen : hist.length = n) :
    (if n = 0 then "seller"
     else if hist.length % 2 = 0 then "seller" else "buyer") = speakerAt n := by
  rw [hlen]
  by_cases h0 : n = 0
  · subst h0; rfl
  · simp [h0, speakerAt]

/-- The loop's message selection reduces to `msgAt` on the accumulated
history. -/
theorem msg_expr (oracle : Nat → TurnOut) (max_amount : ℚ) (n : Nat) :
    (if n = 0 then Msg.openingOffer (max_amount * (6 / 5))
     else (((histUpTo oracle n).getLast?).map HistEntry.content).getD (Msg.plain "")) =
      msgAt oracle max_amount n := by
  cases n with
  | zero => rfl
  | succ m => simp [histUpTo_getLast, msgAt, histEntryAt]

/-- Every agent call the loop makes from round `round_num` (with the
matching history) is `callAt` of its round index. -/
theorem run_loop_trace (oracle : Nat → TurnOut) (max_amount : ℚ) (max_rounds : Nat) :
    ∀ rounds_left round_num i c,
      ((run_loop oracle max_amount max_rounds round_num rounds_left
          (histUpTo oracle round_num)).2)[i]? = some c →
      c = callAt oracle max_amount (round_num + i) := by
  intro r
  induction r with
  | zero =>
      intro n i c h
      simp [run_loop] at h
  | succ r ih =>
      intro n i c h
      rw [run_loop] at h
      rw [speaker_expr n _ (histUpTo_length oracle n), msg_expr oracle max_amount n,
        histUpTo_length oracle n] at h
      by_cases h1 : (oracle n).decision = "accept"
      · rw [if_pos h1] at h
        cases i with
        | zero =>
            simp at h
            subst h
            rfl
        | succ j => simp at h
      · rw [if_neg h1] at h
        by_cases h2 : (oracle n).decision = "reject"
        · rw [if_pos h2] at h
          cases i with
          | zero =>
              simp at h
              subst h
              rfl
          | succ j => simp at h
        · rw [if_neg h2] at h
          cases i with
          | zero =>
              simp at h
              subst h
              rfl
          | succ j =>
              simp only [List.getElem?_cons_succ] at h
              have hstep :
                  histUpTo oracle n ++ [⟨speakerAt n, Msg.plain (oracle n).response,
                    (oracle n).payment⟩] = histUpTo oracle (n + 1) := rfl
              rw [hstep] at h
              have := ih (n + 1) j c h
              rw [this]
              congr 1
              omega

/-- When every remaining round continues, the loop ends in the timeout
result: `rounds = max_rounds` and no `final_decision_by`. -/
theorem run_loop_timeout (oracle : Nat → TurnOut) (max_amount : ℚ) (max_rounds : Nat) :
    ∀ rounds_left round_num hist,
      (∀ i, round_num ≤ i → i < round_num + rounds_left →
        (oracle i).decision ≠ "accept" ∧ (oracle i).decision ≠ "reject") →
      (run_loop oracle max_amount max_rounds round_num rounds_left hist).1 =
        ⟨"timeout", "max_rounds_reached", max_rounds,
          (run_loop oracle max_amount max_rounds round_num rounds_left hist).1.conversation,
          none⟩ := by
  intro r
  induction r with
  | zero => intro n hist hcont; rfl
  | succ r ih =>
      intro n hist hcont
      have hn := hcont n (Nat.le_refl n) (by omega)
      rw [run_loop, if_neg hn.1, if_neg hn.2]
      exact ih (n + 1) _ (fun i hi1 hi2 => hcont i (by omega) (by omega))

/-- When rounds `round_num..round_num+j-1` continue and round
`round_num+j` is terminal, the loop reports that round (1-based) and its
speaker. -/
theorem run_loop_first_terminal (oracle : Nat → TurnOut) (max_amount : ℚ)
    (max_rounds : Nat) :
    ∀ j rounds_left round_num hist, hist.length = round_num → j < rounds_left →
      (∀ i, round_num ≤ i → i < round_num + j →
        (oracle i).decision ≠ "accept" ∧ (oracle i).decision ≠ "reject") →
      ((oracle (round_num + j)).decision = "accept" →
        (run_loop oracle max_amount max_rounds round_num rounds_left hist).1 =
          ⟨"success", "accepted", round_num + j + 1,
            (run_loop oracle max_amount max_rounds round_num rounds_left hist).1.conversation,
            some (speakerAt (round_num + j))⟩) ∧
      ((oracle (round_num + j)).decision ≠ "accept" →
        (oracle (round_num + j)).decision = "reject" →
        (run_loop oracle max_amount max_rounds round_num rounds_left hist).1 =
          ⟨"failed", "rejected", round_num + j + 1,
            (run_loop oracle max_amount max_rounds round_num rounds_left hist).1.conversation,
            some (speakerAt (round_num + j))⟩) := by
  intro j
  induction j with
  | zero =>
      intro rounds_left n hist hlen hj hcont
      cases rounds_left with
      | zero => omega
      | succ r =>
          simp only [Nat.add_zero]
          constructor
          · intro hacc
            rw [run_loop, speaker_expr n hist hlen, if_pos hacc]
          · intro hne hrej
            rw [run_loop, speaker_expr n hist hlen, if_neg hne, if_pos hrej]
  | succ j ih =>
      intro rounds_left n hist hlen hj hcont
      cases rounds_left with
      | zero => omega
      | succ r =>
          have hn := hcont n (Nat.le_refl n) (by omega)
          have heq : n + (j + 1) = (n + 1) + j := by omega
          have hlen2 : (hist ++ [(⟨if n = 0 then "seller"
              else if hist.length % 2 = 0 then "seller" else "buyer",
              Msg.plain (oracle n).response, (oracle n).payment⟩ : HistEntry)]).length
              = n + 1 := by
            simp [hlen]
          have ihx := ih r (n + 1) _ hlen2 (by omega)
            (fun i hi1 hi2 => hcont i (by omega) (by omega))
          rw [heq]
          constructor
          · intro hacc
            rw [run_loop, if_neg hn.1, if_neg hn.2]
            exact ihx.1 hacc
          · intro hne hrej
            rw [run_loop, if_neg hn.1, if_neg hn.2]
            exact ihx.2 hne hrej

/-- C5: a run returns `success`/`accepted` on the first round whose
decision is `accept`, with `rounds` its 1-based index; `failed`/`rejected`
on the first `reject`; and `timeout`/`max_rounds_reached` with
`rounds = max_rounds` when every round within the limit continues. -/
theorem c5_negotiation_termination (oracle : Nat → TurnOut) (max_amount : ℚ)
    (max_rounds k : Nat) :
    ((∀ i, i < k → (oracle i).decision ≠ "accept" ∧ (oracle i).decision ≠ "reject") →
      k < max_rounds → (oracle k).decision = "accept" →
      (run_negotiation oracle max_amount max_rounds).1.status = "success" ∧
      (run_negotiation oracle max_amount max_rounds).1.outcome = "accepted" ∧
      (run_negotiation oracle max_amount max_rounds).1.rounds = k + 1) ∧
    ((∀ i, i < k → (oracle i).decision ≠ "accept" ∧ (oracle i).decision ≠ "reject") →
      k < max_rounds → (oracle k).decision = "reject" →
      (run_negotiation oracle max_amount max_rounds).1.status = "failed" ∧
      (run_negotiation oracle max_amount max_rounds).1.outcome = "rejected" ∧
      (run_negotiation oracle max_amount max_rounds).1.rounds = k + 1) ∧
    ((∀ i, i < max_rounds →
        (oracle i).decision ≠ "accept" ∧ (oracle i).decision ≠ "reject") →
      (run_negotiation oracle max_amount max_rounds).1.status = "timeout" ∧
      (run_negotiation oracle max_amount max_rounds).1.outcome = "max_rounds_reached" ∧
      (run_negotiation oracle max_amount max_rounds).1.rounds = max_rounds) := by
  refine ⟨fun hcont hk hacc => ?_, fun hcont hk hrej => ?_, fun hcont => ?_⟩
  · have e := (run_loop_first_terminal oracle max_amount max_rounds k max_rounds 0 []
        rfl hk (fun i h1 h2 => hcont i (by omega))).1 (by simpa using hacc)
    simp only [run_negotiation]
    rw [e]
    exact ⟨rfl, rfl, by simp⟩
  · have e := (run_loop_first_terminal oracle max_amount max_rounds k max_rounds 0 []
        rfl hk (fun i h1 h2 => hcont i (by omega))).2
        (by simp [hrej]) (by simpa using hrej)
    simp only [run_negotiation]
    rw [e]
    exact ⟨rfl, rfl, by simp⟩
  · have e := run_loop_timeout oracle max_amount max_rounds max_rounds 0 []
        (fun i h1 h2 => hcont i (by omega))
    simp only [run_negotiation]
    rw [e]
    exact ⟨rfl, rfl, rfl⟩

/-- Witness for C5: continue, continue, accept with a limit of 5 gives
`success`/`accepted` after exactly 3 recorded rounds. -/
theorem c5_negotiation_termination_witness :
    (run_negotiation demoOracleAccept 100 5).1.status = "success" ∧
    (run_negotiation demoOracleAccept 100 5).1.outcome = "accepted" ∧
    (run_negotiation demoOracleAccept 100 5).1.rounds = 3 :=
  (c5_negotiation_termination demoOracleAccept 100 5 2).1
    (by decide) (by decide) (by decide)

/-- C10: a run that exhausts the round limit returns a result without a
`final_decision_by` entry (modelled as `none`), while every accept- or
reject-terminated run carries the deciding speaker in
`final_decision_by`. -/
theorem c10_final_decision_by (oracle : Nat → TurnOut) (max_amount : ℚ)
    (max_rounds k : Nat) :
    ((∀ i, i < max_rounds →
        (oracle i).decision ≠ "accept" ∧ (oracle i).decision ≠ "reject") →
      (run_negotiation oracle max_amount max_rounds).1.final_decision_by = none) ∧
    ((∀ i, i < k → (oracle i).decision ≠ "accept" ∧ (oracle i).decision ≠ "reject") →
      k < max_rounds →
      ((oracle k).decision = "accept" ∨ (oracle k).decision = "reject") →
      (run_negotiation oracle max_amount max_rounds).1.final_decision_by =
        some (speakerAt k)) := by
  constructor
  · intro hcont
    have e := run_loop_timeout oracle max_amount max_rounds max_rounds 0 []
        (fun i h1 h2 => hcont i (by omega))
    simp only [run_negotiation]
    rw [e]
  · intro hcont hk hterm
    have ht := run_loop_first_terminal oracle max_amount max_rounds k max_rounds 0 []
        rfl hk (fun i h1 h2 => hcont i (by omega))
    rcases hterm with hacc | hrej
    · have e := ht.1 (by simpa using hacc)
      simp only [run_negotiation]
      rw [e]
      simp
    · have e := ht.2 (by simp [hrej]) (by simpa using hrej)
      simp only [run_negotiation]
      rw [e]
      simp

/-- Witness for C10: an all-continue run over 3 rounds has no
`final_decision_by`. -/
theorem c10_final_decision_by_witness :
    (run_negotiation demoOracleCont 100 3).1.final_decision_by = none :=
  (c10_final_decision_by demoOracleCont 100 3 0).1 (by decide)

/-- C6: in every run, the round-0 call is to the seller with the opening
offer of exactly `1.2 × max_amount`; every later round's message is the
previous round's response (the counterpart's most recent utterance), and
the speaker is the seller exactly when the history length recorded at the
call is even, the buyer when it is odd. -/
theorem c6_round_structure (oracle : Nat → TurnOut) (max_amount : ℚ)
    (max_rounds n : Nat) (c : AgentCall) :
    ((run_negotiation oracle max_amount max_rounds).2)[n]? = some c →
    c.histLen = n ∧
    (n = 0 → c.speaker = "seller" ∧
      c.message = Msg.openingOffer (max_amount * (6 / 5))) ∧
    (0 < n → c.message = Msg.plain (oracle (n - 1)).response) ∧
    (c.histLen % 2 = 0 → c.speaker = "seller") ∧
    (c.histLen % 2 ≠ 0 → c.speaker = "buyer") := by
  intro h
  have hc : c = callAt oracle max_amount n := by
    have h2 := run_loop_trace oracle max_amount max_rounds max_rounds 0 n c h
    simpa using h2
  subst hc
  refine ⟨rfl, fun h0 => ?_, fun hpos => ?_, fun hev => ?_, fun hod => ?_⟩
  · subst h0
    exact ⟨rfl, rfl⟩
  · cases n with
    | zero => omega
    | succ m => simp [callAt, msgAt]
  · simp only [callAt] at hev
    simp [callAt, speakerAt, hev]
  · simp only [callAt] at hod
    simp [callAt, speakerAt, hod]

/-- Witness for C6: in an all-continue run, round 1 is the buyer's, with
history length 1 and the seller's round-0 response as message. -/
theorem c6_round_structure_witness :
    (⟨"buyer", Msg.plain "Still negotiating. DECISION: CONTINUE", 1⟩ : AgentCall).histLen = 1 ∧
    (⟨"buyer", Msg.plain "Still negotiating. DECISION: CONTINUE", 1⟩ : AgentCall).message =
      Msg.plain (demoOracleCont 0).response ∧
    (⟨"buyer", Msg.plain "Still negotiating. DECISION: CONTINUE", 1⟩ : AgentCall).speaker =
      "buyer" := by
  have h := c6_round_structure demoOracleCont 10 3 1
    ⟨"buyer", Msg.plain "Still negotiating. DECISION: CONTINUE", 1⟩ (by decide)
  exact ⟨h.1, h.2.2.1 (by decide), h.2.2.2.2 (by decide)⟩

/-- Writing transaction hashes never changes a row's status. -/
theorem apply_tx_updates_status (row : IntentRow) (txS txU : Option String) :
    (apply_tx_updates row txS txU).status = row.status := by
  simp only [apply_tx_updates]
  split <;> split <;> rfl

/-- Looking up `id` after a keyed row rewrite targeting `id2`: the found
row is transformed exactly when `id = id2`. -/
theorem lookup_map_ite (g : String × IntentRow → IntentRow) (id id2 : String)
    (table : IntentsTable) :
    lookup_intent (table.map (fun p =>
        if p.1 == id2 then (p.1, g p) else p)) id
      = (lookup_intent table id).map (fun r => if id == id2 then g (id, r) else r) := by
  simp only [lookup_intent, List.find?_map]
  have hpred : ((fun p : String × IntentRow => p.1 == id) ∘
      (fun p => if p.1 == id2 then (p.1, g p) else p)) =
      (fun p : String × IntentRow => p.1 == id) := by
    funext p
    by_cases h : p.1 = id2 <;> simp [h]
  rw [hpred]
  cases hf : table.find? (fun p => p.1 == id) with
  | none => rfl
  | some p =>
      have hp : p.1 = id := by
        have := List.find?_some hf
        simpa using this
      subst hp
      simp only [Option.map_map, Option.map_some]
      by_cases h2 : p.1 = id2
      · subst h2
        simp [Function.comp]
      · simp [Function.comp, h2]

/-- Effect of `mark_intent_complete` on any row's status. -/
theorem statusOf_mark (table : IntentsTable) (intent_id target_id : String)
    (txS txU : Option String) :
    statusOf (mark_intent_complete table target_id txS txU) intent_id =
      (statusOf table intent_id).map
        (fun st => if intent_id == target_id then "completed" else st) := by
  simp only [statusOf, mark_intent_complete,
    lookup_map_ite (fun p => { apply_tx_updates p.2 txS txU with status := "completed" })
      intent_id target_id table]
  cases lookup_intent table intent_id with
  | none => rfl
  | some r =>
      by_cases h : intent_id = target_id <;> simp [h]

/-- `update_intent_with_transactions` never changes any status. -/
theorem statusOf_update (table : IntentsTable) (intent_id target_id : String)
    (txS txU : Option String) :
    statusOf (update_intent_with_transactions table target_id txS txU) intent_id =
      statusOf table intent_id := by
  simp only [update_intent_with_transactions]
  split
  · rfl
  · simp only [statusOf,
      lookup_map_ite (fun p => apply_tx_updates p.2 txS txU) intent_id target_id table]
    cases lookup_intent table intent_id with
    | none => rfl
    | some r =>
        by_cases h : intent_id = target_id <;>
          simp [h, apply_tx_updates_status]

/-- A lookup that succeeds is unaffected by appending rows. -/
theorem lookup_append_of_some (table l2 : IntentsTable) (intent_id : String)
    (r : IntentRow) (h : lookup_intent table intent_id = some r) :
    lookup_intent (table ++ l2) intent_id = some r := by
  simp only [lookup_intent, List.find?_append] at h ⊢
  cases hf : table.find? (fun p => p.1 == intent_id) with
  | none => rw [hf] at h; simp at h
  | some p =>
      rw [hf] at h
      simp at h
      simp [Option.or, h]

/-- A freshly inserted intent is found, with the inserted `live` row. -/
theorem lookup_create_fresh (table : IntentsTable) (new_uuid user_id desc : String)
    (amt : ℚ) (hfresh : new_uuid ∉ table.map Prod.fst) :
    lookup_intent (create_test_intent table new_uuid user_id desc amt) new_uuid =
      some { user_id := user_id, max_amount_usd := amt,
             description := desc, status := "live" } := by
  have hnone : table.find? (fun p => p.1 == new_uuid) = none := by
    rw [List.find?_eq_none]
    intro p hp
    simp only [beq_iff_eq]
    intro hc
    exact hfresh (List.mem_map.mpr ⟨p, hp, hc⟩)
  simp [create_test_intent, lookup_intent, List.find?_append, hnone, Option.or]

/-- C7: `create_test_intent` inserts its fresh row with status `live`;
`mark_intent_complete` sets the target row's status to `completed`; and no
operation of the layer moves a `completed` row back to `live` - updating
transaction hashes, marking any row complete, or inserting a fresh row all
leave a completed row's status at `completed` (`get_intent` performs only
a select and returns without modifying the table, as its type shows). -/
theorem c7_status_one_directional (table : IntentsTable)
    (new_uuid user_id desc : String) (amt : ℚ) (intent_id target_id : String)
    (txS txU : Option String) :
    (new_uuid ∉ table.map Prod.fst →
      statusOf (create_test_intent table new_uuid user_id desc amt) new_uuid =
        some "live") ∧
    ((statusOf table intent_id).isSome = true →
      statusOf (mark_intent_complete table intent_id txS txU) intent_id =
        some "completed") ∧
    (statusOf table intent_id = some "completed" →
      statusOf (update_intent_with_transactions table target_id txS txU) intent_id =
        some "completed") ∧
    (statusOf table intent_id = some "completed" →
      statusOf (mark_intent_complete table target_id txS txU) intent_id =
        some "completed") ∧
    (statusOf table intent_id = some "completed" →
      statusOf (create_test_intent table new_uuid user_id desc amt) intent_id =
        some "completed") := by
  refine ⟨fun hfresh => ?_, fun hsome => ?_, fun hcomp => ?_, fun hcomp => ?_,
    fun hcomp => ?_⟩
  · simp [statusOf, lookup_create_fresh table new_uuid user_id desc amt hfresh]
  · rw [statusOf_mark]
    cases hs : statusOf table intent_id with
    | none => rw [hs] at hsome; simp at hsome
    | some st => simp
  · rw [statusOf_update]
    exact hcomp
  · rw [statusOf_mark, hcomp]
    by_cases h : intent_id = target_id <;> simp [h]
  · simp only [statusOf, create_test_intent] at hcomp ⊢
    cases hl : lookup_intent table intent_id with
    | none => rw [hl] at hcomp; simp at hcomp
    | some r =>
        rw [lookup_append_of_some table _ intent_id r hl]
        rw [hl] at hcomp
        simpa using hcomp

/-- Witness for C7: a live single-row table, marked complete. -/
theorem c7_status_one_directional_witness :
    statusOf (mark_intent_complete
        [("id-1", { user_id := "u", max_amount_usd := 5,
                    description := "d", status := "live" })]
        "id-1" none none) "id-1" = some "completed" := by
  have h := (c7_status_one_directional
      [("id-1", { user_id := "u", max_amount_usd := 5,
                  description := "d", status := "live" })]
      "fresh" "u" "d" 5 "id-1" "id-1" none none).2.1
  exact h (by decide)

/-- With a truthy expected amount, the scan is exactly "first transaction
within tolerance of the truncated base-unit target". -/
theorem txLoop_eq_find (x : ℚ) (hx : x ≠ 0) :
    ∀ txs : List ChainTx, txLoop (some x) txs =
      (txs.find? (matchesWei (pyInt (x * 1000000)))).map ChainTx.hash := by
  intro txs
  induction txs with
  | nil => rfl
  | cons tx rest ih =>
      simp only [txLoop, if_neg hx, List.find?]
      by_cases hm : matchesWei (pyInt (x * 1000000)) tx = true
      · simp [hm]
      · rw [Bool.not_eq_true] at hm
        simp [hm, ih]

/-- C8 (amended): with the tracker configured, a successful query and a
given nonzero `expected_amount_usd = x` whose truncated base-unit target
`int(x * 1_000_000)` is at least 1 (so the 1%-division is defined),
`get_latest_tx_to` returns the hash of the first transaction in the
(most-recent-first) list whose value is within 1% relative difference of
that truncated target - not of `x * 1,000,000` itself, see the
counterexample - and no match when no transaction is within tolerance. -/
theorem c8_amount_matching (api_key : Option String) (recipient : String)
    (txs : List ChainTx) (x : ℚ)
    (hkey : truthyOptStr api_key = true) (hrec : recipient ≠ "") (hx : x ≠ 0)
    (_hw : 1 ≤ pyInt (x * 1000000)) :
    get_latest_tx_to api_key recipient true txs (some x) =
      (txs.find? (matchesWei (pyInt (x * 1000000)))).map ChainTx.hash ∧
    ((∀ tx ∈ txs, matchesWei (pyInt (x * 1000000)) tx = false) →
      get_latest_tx_to api_key recipient true txs (some x) = none) := by
  have hguard : ¬ (truthyOptStr api_key = false ∨ recipient = "") := by
    simp [hkey, hrec]
  constructor
  · cases txs with
    | nil => simp [get_latest_tx_to, hguard]
    | cons tx rest =>
        rw [get_latest_tx_to, if_neg hguard,
          if_pos ⟨rfl, by simp⟩, txLoop_eq_find x hx]
  · intro hnone
    cases txs with
    | nil => simp [get_latest_tx_to, hguard]
    | cons tx rest =>
        rw [get_latest_tx_to, if_neg hguard, if_pos ⟨rfl, by simp⟩,
          txLoop_eq_find x hx, List.find?_eq_none.mpr (by simpa using hnone)]
        rfl

/-- Witness for C8: expecting 1 USD (= 1,000,000 base units), the scan
skips a 2,000,000-unit transfer and returns the 1,000,000-unit one. -/
theorem c8_amount_matching_witness :
    get_latest_tx_to (some "apikey") "0xRecipient" true
      [⟨2000000, "0xaaa"⟩, ⟨1000000, "0xbbb"⟩] (some 1) = some "0xbbb" := by
  have h := (c8_amount_matching (some "apikey") "0xRecipient"
      [⟨2000000, "0xaaa"⟩, ⟨1000000, "0xbbb"⟩] 1
      (by decide) (by decide) (by norm_num)
      (by norm_num [pyInt])).1
  have hip : pyInt ((1 : ℚ) * 1000000) = 1000000 := by norm_num [pyInt]
  rw [hip] at h
  have h1 : matchesWei 1000000 ⟨2000000, "0xaaa"⟩ = false := by
    simp only [matchesWei, decide_eq_false_iff_not]
    norm_num
  have h2 : matchesWei 1000000 ⟨1000000, "0xbbb"⟩ = true := by
    simp only [matchesWei, decide_eq_true_eq]
    norm_num
  rw [h]
  simp [List.find?, h1, h2]

/-- C8 counterexample: with `expected_amount_usd = 0.0000019` the code's
target is `int(1.9) = 1` base unit, so a 1-unit transaction is returned -
although its value is 47% away from `0.0000019 × 1,000,000 = 1.9`, far
outside the claimed 1% tolerance of `X × 1,000,000`. -/
theorem c8_tolerance_counterexample :
    get_latest_tx_to (some "apikey") "0xRecipient" true [⟨1, "0xabc"⟩]
      (some (19 / 10000000 : ℚ)) = some "0xabc" ∧
    ¬ (|((1 : Int) : ℚ) - (19 / 10000000 : ℚ) * 1000000| /
        ((19 / 10000000 : ℚ) * 1000000) < 1 / 100) := by
  have hprod : (19 / 10000000 : ℚ) * 1000000 = 19 / 10 := by norm_num
  have hfloor : pyInt ((19 / 10000000 : ℚ) * 1000000) = 1 := by
    rw [hprod]
    simp only [pyInt, if_pos (by norm_num : (0:ℚ) ≤ 19 / 10)]
    norm_num
  have hmatch : matchesWei (pyInt ((19 / 10000000 : ℚ) * 1000000)) ⟨1, "0xabc"⟩ = true := by
    rw [hfloor]
    simp only [matchesWei, decide_eq_true_eq]
    norm_num
  constructor
  · rw [get_latest_tx_to, if_neg (by simp [truthyOptStr]),
      if_pos ⟨rfl, by simp⟩]
    simp only [txLoop, if_neg (by norm_num : ¬ (19 / 10000000 : ℚ) = 0), hmatch]
    rfl
  · rw [hprod]
    rw [show ((1 : Int) : ℚ) - 19 / 10 = -(9 / 10) by norm_num, abs_neg,
      abs_of_nonneg (by norm_num : (0:ℚ) ≤ 9 / 10)]
    norm_num

end Fetch
